import Mathlib

/-!
Shallow embedding of `anntools/cooperation.py`: the cooperative storage/merge
engine (NoCooperation, TupleCooperation, ListCooperation, DictCooperation)
operating on a shared keyed object space.

Modelling conventions:
* Python objects are the inductive `Obj`: atoms (identified by a `Nat` id),
  tuples, lists, and dictionaries with `Nat` keys.  Python's identity
  comparison `is` is modelled by the structural test `Obj.beq`; for atoms
  this is exact (two atoms are the same object iff they carry the same id),
  and atoms are the only place the claims rely on object identity.
* The object space (a Python dict) is an association list `ObjSpace` with the
  Python dict operations: lookup, insert-or-update preserving position,
  delete.  Keys are `Nat`.
* The class filter `isinstance(obj, classfilter)` is an arbitrary Boolean
  predicate `ClassFilter := Obj → Bool`; every concrete `isinstance` check is
  such a predicate.
* Each mutating operation returns `Option Err × ObjSpace`: the error raised
  (if any) together with the state of the space when the call returns or the
  exception propagates.  Returning the post-exception state is essential
  because the Python code can mutate the space before raising.
-/

/-- A Python object: an atom (identity given by its id), a tuple, a list, or
a dict with `Nat` keys. -/
inductive Obj where
  | atom : Nat → Obj
  | tup : List Obj → Obj
  | lst : List Obj → Obj
  | dct : List (Nat × Obj) → Obj

/-- Is the object a tuple (`isinstance(obj, tuple)`)? -/
def Obj.isTup : Obj → Bool
  | .tup _ => true
  | _ => false

/-- Is the object a list (`isinstance(obj, list)`)? -/
def Obj.isLst : Obj → Bool
  | .lst _ => true
  | _ => false

/-- Is the object a dict (`isinstance(obj, dict)`)? -/
def Obj.isDct : Obj → Bool
  | .dct _ => true
  | _ => false

/-- Is the object an atom (neither tuple, list nor dict)? -/
def Obj.isAtom : Obj → Bool
  | .atom _ => true
  | _ => false

mutual

/-- Structural equality on `Obj`, modelling Python's identity test `is`
(exact on atoms: same id iff same object). -/
def Obj.beq : Obj → Obj → Bool
  | .atom a, .atom b => a == b
  | .tup xs, .tup ys => beqObjList xs ys
  | .lst xs, .lst ys => beqObjList xs ys
  | .dct m, .dct n => beqObjEntries m n
  | _, _ => false

/-- Elementwise `Obj.beq` on lists of objects. -/
def beqObjList : List Obj → List Obj → Bool
  | [], [] => true
  | x :: xs, y :: ys => Obj.beq x y && beqObjList xs ys
  | _, _ => false

/-- Entrywise `Obj.beq` on dict entries. -/
def beqObjEntries : List (Nat × Obj) → List (Nat × Obj) → Bool
  | [], [] => true
  | (k, v) :: xs, (k', v') :: ys =>
    k == k' && Obj.beq v v' && beqObjEntries xs ys
  | _, _ => false

end

/-- A Python dict with `Nat` keys and `Obj` values, as an association list
without duplicate keys (all operations preserve that shape). -/
abbrev ObjSpace := List (Nat × Obj)

/-- Python `d[k]` / `d.get(k)`: first (unique) binding of `k`. -/
def getk : ObjSpace → Nat → Option Obj
  | [], _ => none
  | (k', v) :: rest, k => if k' = k then some v else getk rest k

/-- Python `k in d`. -/
def hask (s : ObjSpace) (k : Nat) : Bool :=
  (getk s k).isSome

/-- Python `d[k] = v`: update in place if the key exists (keeping its
position), otherwise append the new binding. -/
def setk : ObjSpace → Nat → Obj → ObjSpace
  | [], k, v => [(k, v)]
  | (k', v') :: rest, k, v =>
    if k' = k then (k, v) :: rest else (k', v') :: setk rest k v

/-- Python `del d[k]`: drop the (unique) binding of `k`. -/
def delk : ObjSpace → Nat → ObjSpace
  | [], _ => []
  | (k', v') :: rest, k =>
    if k' = k then rest else (k', v') :: delk rest k

/-- A faithful image of a Python dict has no duplicate keys. -/
def keysNodup (s : ObjSpace) : Prop :=
  (s.map Prod.fst).Nodup

/-- The class filter: `isinstance(obj, classfilter)` as a predicate. -/
abbrev ClassFilter := Obj → Bool

/-- The exceptions the cooperation schemes can raise.  `filterMismatch` is
the plain `ValueError` for a class-filter failure, `overwriteRejected` is
`NoCooperationError`, `partitionOverwriteRejected` is `DictCooperationError`,
`incompatibleStorage` is `DictCooperationFailed`, and `indexError` is the
built-in `IndexError` (reachable in `ListCooperation.remove`). -/
inductive Err where
  | filterMismatch
  | overwriteRejected
  | partitionOverwriteRejected
  | incompatibleStorage
  | indexError
deriving DecidableEq

/-! ## NoCooperation -/

/-- `NoCooperation.iter`: yields the stored object, if present and fitting
the class filter. -/
def NCiter (s : ObjSpace) (k : Nat) (cf : ClassFilter) : List Obj :=
  match getk s k with
  | some o => if cf o then [o] else []
  | none => []

/-- `NoCooperation.add`: filter check, then store unless the key is already
occupied, in which case `NoCooperationError` is raised. -/
def NCadd (s : ObjSpace) (k : Nat) (cf : ClassFilter) (obj : Obj) :
    Option Err × ObjSpace :=
  if ¬ cf obj then (some Err.filterMismatch, s)
  else if ¬ hask s k then (none, setk s k obj)
  else (some Err.overwriteRejected, s)

/-- `NoCooperation.remove`: filter check, then delete the key iff the stored
object is identity-equal (`is`) to the argument; otherwise a silent no-op. -/
def NCremove (s : ObjSpace) (k : Nat) (cf : ClassFilter) (obj : Obj) :
    Option Err × ObjSpace :=
  if ¬ cf obj then (some Err.filterMismatch, s)
  else
    match getk s k with
    | some st => if Obj.beq st obj then (none, delk s k) else (none, s)
    | none => (none, s)

example : NCadd [] 0 (fun _ => true) (Obj.atom 5) = (none, [(0, Obj.atom 5)]) :=
  rfl

example :
    NCremove [(0, Obj.atom 5)] 0 (fun _ => true) (Obj.atom 5) = (none, []) :=
  rfl

/-! ## TupleCooperation -/

/-- `TupleCooperation.iter`: all stored objects fitting the class filter —
the elements if the storage is a tuple, otherwise the bare stored object. -/
def TCiter (s : ObjSpace) (k : Nat) (cf : ClassFilter) : List Obj :=
  match getk s k with
  | none => []
  | some (Obj.tup xs) => xs.filter cf
  | some st => if cf st then [st] else []

/-- The non-flattening tail of `TupleCooperation.add`: filter check, then
store the object bare on an absent key, append to an existing tuple storage,
or pair up with an existing single storage. -/
def TCaddUnit (s : ObjSpace) (k : Nat) (cf : ClassFilter) (obj : Obj) :
    Option Err × ObjSpace :=
  if ¬ cf obj then (some Err.filterMismatch, s)
  else
    match getk s k with
    | none => (none, setk s k obj)
    | some (Obj.tup xs) => (none, setk s k (Obj.tup (xs ++ [obj])))
    | some st => (none, setk s k (Obj.tup [st, obj]))

mutual

/-- `TupleCooperation.add`: a tuple argument is flattened — each element is
added in order by a recursive call (an exception aborts the iteration,
leaving earlier elements added); any other argument goes to `TCaddUnit`. -/
def TCadd (k : Nat) (cf : ClassFilter) : Obj → ObjSpace → Option Err × ObjSpace
  | Obj.tup xs, s => TCaddMany k cf xs s
  | obj, s => TCaddUnit s k cf obj

/-- The `for o in obj: self.add(o)` loop of `TupleCooperation.add`. -/
def TCaddMany (k : Nat) (cf : ClassFilter) :
    List Obj → ObjSpace → Option Err × ObjSpace
  | [], s => (none, s)
  | o :: os, s =>
    match TCadd k cf o s with
    | (none, s') => TCaddMany k cf os s'
    | r => r

end

/-- The non-flattening tail of `TupleCooperation.remove`: filter check; on a
tuple storage drop every element identical (`is`) to the argument and demote
(0 left: delete the key; 1 left: store it bare; otherwise keep the tuple,
writing only when something was dropped); on a single storage delete the key
iff it is the argument. -/
def TCremoveUnit (s : ObjSpace) (k : Nat) (cf : ClassFilter) (obj : Obj) :
    Option Err × ObjSpace :=
  if ¬ cf obj then (some Err.filterMismatch, s)
  else
    match getk s k with
    | none => (none, s)
    | some (Obj.tup xs) =>
      let filtered := xs.filter (fun a => ¬ Obj.beq a obj)
      if filtered.length < xs.length then
        match filtered with
        | [] => (none, delk s k)
        | [x] => (none, setk s k x)
        | _ => (none, setk s k (Obj.tup filtered))
      else (none, s)
    | some st =>
      if Obj.beq st obj then (none, delk s k) else (none, s)

mutual

/-- `TupleCooperation.remove`: a tuple argument is flattened — each element
is removed in order by a recursive call (an exception aborts the iteration);
any other argument goes to `TCremoveUnit`. -/
def TCremove (k : Nat) (cf : ClassFilter) :
    Obj → ObjSpace → Option Err × ObjSpace
  | Obj.tup xs, s => TCremoveMany k cf xs s
  | obj, s => TCremoveUnit s k cf obj

/-- The `for o in obj: self.remove(o)` loop of `TupleCooperation.remove`. -/
def TCremoveMany (k : Nat) (cf : ClassFilter) :
    List Obj → ObjSpace → Option Err × ObjSpace
  | [], s => (none, s)
  | o :: os, s =>
    match TCremove k cf o s with
    | (none, s') => TCremoveMany k cf os s'
    | r => r

end

/-! ## ListCooperation -/

/-- `ListCooperation.iter`: all stored objects fitting the class filter —
the elements if the storage is a list, otherwise the bare stored object. -/
def LCiter (s : ObjSpace) (k : Nat) (cf : ClassFilter) : List Obj :=
  match getk s k with
  | none => []
  | some (Obj.lst xs) => xs.filter cf
  | some st => if cf st then [st] else []

/-- The non-flattening tail of `ListCooperation.add`: filter check, then
store the object bare on an absent key, append in place to an existing list
storage, or pair up with an existing single storage in a fresh list. -/
def LCaddUnit (s : ObjSpace) (k : Nat) (cf : ClassFilter) (obj : Obj) :
    Option Err × ObjSpace :=
  if ¬ cf obj then (some Err.filterMismatch, s)
  else
    match getk s k with
    | none => (none, setk s k obj)
    | some (Obj.lst xs) => (none, setk s k (Obj.lst (xs ++ [obj])))
    | some st => (none, setk s k (Obj.lst [st, obj]))

mutual

/-- `ListCooperation.add`: a list argument is flattened — each element is
added in order by a recursive call (an exception aborts the iteration,
leaving earlier elements added); any other argument goes to `LCaddUnit`. -/
def LCadd (k : Nat) (cf : ClassFilter) : Obj → ObjSpace → Option Err × ObjSpace
  | Obj.lst xs, s => LCaddMany k cf xs s
  | obj, s => LCaddUnit s k cf obj

/-- The `for o in obj: self.add(o)` loop of `ListCooperation.add`. -/
def LCaddMany (k : Nat) (cf : ClassFilter) :
    List Obj → ObjSpace → Option Err × ObjSpace
  | [], s => (none, s)
  | o :: os, s =>
    match LCadd k cf o s with
    | (none, s') => LCaddMany k cf os s'
    | r => r

end

/-- Python `del xs[i]` for a nonnegative index: drops the element if the
index is in range, signals `IndexError` (`false`) otherwise. -/
def delAt (xs : List Obj) (i : Nat) : Option (List Obj) :=
  if i < xs.length then some (xs.eraseIdx i) else none

/-- The `for i in idx: del storage[i]` loop of `ListCooperation.remove`,
executed against the indices collected from the ORIGINAL list: returns
`false` together with the partially mutated list when a deletion goes out of
range (Python raises `IndexError` there). -/
def delIdxs : List Obj → List Nat → Bool × List Obj
  | xs, [] => (true, xs)
  | xs, i :: is =>
    match delAt xs i with
    | some xs' => delIdxs xs' is
    | none => (false, xs)

/-- The non-flattening tail of `ListCooperation.remove`: filter check; on a
list storage collect the indices of elements identical (`is`) to the
argument, delete them in place one by one (stale indices: the list shrinks
while the collected indices do not shift, so later deletions can hit the
wrong element or run out of range raising `IndexError`), then demote (empty:
delete the key; 1 left: store it bare); on a single storage delete the key
iff it is the argument. -/
def LCremoveUnit (s : ObjSpace) (k : Nat) (cf : ClassFilter) (obj : Obj) :
    Option Err × ObjSpace :=
  if ¬ cf obj then (some Err.filterMismatch, s)
  else
    match getk s k with
    | none => (none, s)
    | some (Obj.lst xs) =>
      let idx := (List.range xs.length).filter
        (fun i => Obj.beq (xs.getD i (Obj.atom 0)) obj)
      match delIdxs xs idx with
      | (false, xs') => (some Err.indexError, setk s k (Obj.lst xs'))
      | (true, []) => (none, delk s k)
      | (true, [x]) => (none, setk s k x)
      | (true, xs') => (none, setk s k (Obj.lst xs'))
    | some st =>
      if Obj.beq st obj then (none, delk s k) else (none, s)

mutual

/-- `ListCooperation.remove`: a list argument is flattened — each element is
removed in order by a recursive call (an exception aborts the iteration);
any other argument goes to `LCremoveUnit`. -/
def LCremove (k : Nat) (cf : ClassFilter) :
    Obj → ObjSpace → Option Err × ObjSpace
  | Obj.lst xs, s => LCremoveMany k cf xs s
  | obj, s => LCremoveUnit s k cf obj

/-- The `for o in obj: self.remove(o)` loop of `ListCooperation.remove`. -/
def LCremoveMany (k : Nat) (cf : ClassFilter) :
    List Obj → ObjSpace → Option Err × ObjSpace
  | [], s => (none, s)
  | o :: os, s =>
    match LCremove k cf o s with
    | (none, s') => LCremoveMany k cf os s'
    | r => r

end

/-! ## DictCooperation -/

/-- `DictCooperation.iter`: yields the object under this handle's own
partition key (`storekey`) of the dict stored at the primary key, if it fits
the class filter.  (On a non-dict storage the Python membership test
`self.storekey in storage` is not reached by any theorem below: they are
stated for an absent key or a dict-shaped storage only.) -/
def DCiter (s : ObjSpace) (k : Nat) (storekey : Nat) (cf : ClassFilter) :
    List Obj :=
  match getk s k with
  | some (Obj.dct m) =>
    match getk m storekey with
    | some o => if cf o then [o] else []
    | none => []
  | _ => []

/-- `DictCooperation.add`: filter check; a fresh one-entry partition map on
an absent primary key; `DictCooperationFailed` on a non-dict storage;
`DictCooperationError` when the handle's own partition key is already
occupied; otherwise insert into the partition map in place. -/
def DCadd (s : ObjSpace) (k : Nat) (storekey : Nat) (cf : ClassFilter)
    (obj : Obj) : Option Err × ObjSpace :=
  if ¬ cf obj then (some Err.filterMismatch, s)
  else
    match getk s k with
    | none => (none, setk s k (Obj.dct [(storekey, obj)]))
    | some (Obj.dct m) =>
      if hask m storekey then (some Err.partitionOverwriteRejected, s)
      else (none, setk s k (Obj.dct (setk m storekey obj)))
    | some _ => (some Err.incompatibleStorage, s)

/-- `DictCooperation.remove`: filter check; no-op on an absent primary key;
`DictCooperationFailed` on a non-dict storage; otherwise delete the entry
under the handle's own partition key whenever that key is present — the
argument `obj` is never compared against the stored value — and delete the
primary key entirely when the partition map becomes empty. -/
def DCremove (s : ObjSpace) (k : Nat) (storekey : Nat) (cf : ClassFilter)
    (obj : Obj) : Option Err × ObjSpace :=
  if ¬ cf obj then (some Err.filterMismatch, s)
  else
    match getk s k with
    | none => (none, s)
    | some (Obj.dct m) =>
      if hask m storekey then
        match delk m storekey with
        | [] => (none, delk s k)
        | m' => (none, setk s k (Obj.dct m'))
      else (none, s)
    | some _ => (some Err.incompatibleStorage, s)

/-! ## Operation sequences and storage-shape invariants -/

/-- One `add` or `remove` call (with its argument) against the bound key. -/
inductive CoopOp where
  | addOp : Obj → CoopOp
  | removeOp : Obj → CoopOp

/-- Run one `TupleCooperation` operation, keeping the resulting space
whether or not the call raised. -/
def TCapply (k : Nat) (cf : ClassFilter) (s : ObjSpace) : CoopOp → ObjSpace
  | .addOp o => (TCadd k cf o s).2
  | .removeOp o => (TCremove k cf o s).2

/-- Run a sequence of `TupleCooperation` operations. -/
def TCrun (k : Nat) (cf : ClassFilter) (ops : List CoopOp) (s : ObjSpace) :
    ObjSpace :=
  ops.foldl (TCapply k cf) s

/-- The `TupleCooperation` storage-shape invariant for one stored value: a
tuple storage has at least two elements, none of which is itself a tuple. -/
def TCvalInv : Obj → Prop
  | Obj.tup xs => 2 ≤ xs.length ∧ ∀ o ∈ xs, o.isTup = false
  | _ => True

/-- The `TupleCooperation` storage-shape invariant at a key: the value bound
there (if any) satisfies `TCvalInv`. -/
def TCkeyInv (s : ObjSpace) (k : Nat) : Prop :=
  ∀ v, getk s k = some v → TCvalInv v

/-- Well-formedness carried through a `TupleCooperation` run: the space has
no duplicate keys (true of every real Python dict) and the bound key
satisfies the storage-shape invariant. -/
def TCgood (s : ObjSpace) (k : Nat) : Prop :=
  keysNodup s ∧ TCkeyInv s k

/-- The space reached by a sequence of successful `TupleCooperation.add`
calls (each call's resulting space feeds the next call). -/
def TCaddSeq (k : Nat) (cf : ClassFilter) (os : List Obj) (s : ObjSpace) :
    ObjSpace :=
  os.foldl (fun s' o => (TCadd k cf o s').2) s

/-- The space reached by a sequence of successful `ListCooperation.add`
calls (each call's resulting space feeds the next call). -/
def LCaddSeq (k : Nat) (cf : ClassFilter) (os : List Obj) (s : ObjSpace) :
    ObjSpace :=
  os.foldl (fun s' o => (LCadd k cf o s').2) s

/-- The four cooperation-level failures named by the specification's error
taxonomy (everything the schemes raise except the built-in `IndexError`). -/
def specErr (e : Err) : Prop :=
  e = Err.filterMismatch ∨ e = Err.overwriteRejected ∨
    e = Err.partitionOverwriteRejected ∨ e = Err.incompatibleStorage

/-! ## Basic lemmas about the space operations -/

theorem getk_setk_self (s : ObjSpace) (k : Nat) (v : Obj) :
    getk (setk s k v) k = some v := by
  induction s with
  | nil => simp [setk, getk]
  | cons hd tl ih =>
    obtain ⟨k', v'⟩ := hd
    by_cases h : k' = k
    · simp [setk, getk, h]
    · simp [setk, getk, h, ih]

theorem getk_eq_none_of_not_mem (s : ObjSpace) (k : Nat)
    (h : k ∉ s.map Prod.fst) : getk s k = none := by
  induction s with
  | nil => rfl
  | cons hd tl ih =>
    obtain ⟨k', v'⟩ := hd
    simp only [List.map_cons, List.mem_cons] at h
    push_neg at h
    simp [getk, Ne.symm h.1, ih h.2]

theorem mem_keys_setk (s : ObjSpace) (k j : Nat) (v : Obj) :
    j ∈ (setk s k v).map Prod.fst → j = k ∨ j ∈ s.map Prod.fst := by
  induction s with
  | nil => simp [setk]
  | cons hd tl ih =>
    obtain ⟨k', v'⟩ := hd
    by_cases h : k' = k
    · simp [setk, h]
    · simp only [setk, if_neg h, List.map_cons, List.mem_cons]
      rintro (rfl | hj)
      · right; left; rfl
      · rcases ih hj with h1 | h2
        · left; exact h1
        · right; right; exact h2

theorem keysNodup_setk (s : ObjSpace) (k : Nat) (v : Obj)
    (h : keysNodup s) : keysNodup (setk s k v) := by
  induction s with
  | nil => simp [keysNodup, setk]
  | cons hd tl ih =>
    obtain ⟨k', v'⟩ := hd
    simp only [keysNodup, List.map_cons, List.nodup_cons] at h
    by_cases hk : k' = k
    · subst hk
      simpa [keysNodup, setk] using h
    · have htl := ih h.2
      simp only [keysNodup, setk, if_neg hk, List.map_cons, List.nodup_cons]
      refine ⟨fun hmem => ?_, htl⟩
      rcases mem_keys_setk tl k k' v hmem with h1 | h2
      · exact hk h1
      · exact h.1 h2

theorem mem_keys_delk (s : ObjSpace) (k j : Nat) :
    j ∈ (delk s k).map Prod.fst → j ∈ s.map Prod.fst := by
  induction s with
  | nil => simp [delk]
  | cons hd tl ih =>
    obtain ⟨k', v'⟩ := hd
    by_cases h : k' = k
    · simp only [delk, if_pos h, List.map_cons, List.mem_cons]
      exact fun hj => Or.inr hj
    · simp only [delk, if_neg h, List.map_cons, List.mem_cons]
      rintro (rfl | hj)
      · left; rfl
      · right; exact ih hj

theorem keysNodup_delk (s : ObjSpace) (k : Nat) (h : keysNodup s) :
    keysNodup (delk s k) := by
  induction s with
  | nil => simp [keysNodup, delk]
  | cons hd tl ih =>
    obtain ⟨k', v'⟩ := hd
    simp only [keysNodup, List.map_cons, List.nodup_cons] at h
    by_cases hk : k' = k
    · simpa [keysNodup, delk, hk] using h.2
    · simp only [keysNodup, delk, if_neg hk, List.map_cons, List.nodup_cons]
      exact ⟨fun hmem => h.1 (mem_keys_delk tl k k' hmem), ih h.2⟩

theorem getk_delk_self (s : ObjSpace) (k : Nat) (h : keysNodup s) :
    getk (delk s k) k = none := by
  induction s with
  | nil => rfl
  | cons hd tl ih =>
    obtain ⟨k', v'⟩ := hd
    simp only [keysNodup, List.map_cons, List.nodup_cons] at h
    by_cases hk : k' = k
    · subst hk
      simp only [delk, if_pos rfl]
      exact getk_eq_none_of_not_mem tl k' h.1
    · simp [delk, getk, hk, ih h.2]

/-! ## Dispatch lemmas: a non-collection argument goes to the unit path -/

theorem TCadd_eq_unit (k : Nat) (cf : ClassFilter) (obj : Obj) (s : ObjSpace)
    (h : obj.isTup = false) : TCadd k cf obj s = TCaddUnit s k cf obj := by
  cases obj with
  | tup xs => simp [Obj.isTup] at h
  | atom n => rfl
  | lst xs => rfl
  | dct m => rfl

theorem TCremove_eq_unit (k : Nat) (cf : ClassFilter) (obj : Obj)
    (s : ObjSpace) (h : obj.isTup = false) :
    TCremove k cf obj s = TCremoveUnit s k cf obj := by
  cases obj with
  | tup xs => simp [Obj.isTup] at h
  | atom n => rfl
  | lst xs => rfl
  | dct m => rfl

theorem LCadd_eq_unit (k : Nat) (cf : ClassFilter) (obj : Obj) (s : ObjSpace)
    (h : obj.isLst = false) : LCadd k cf obj s = LCaddUnit s k cf obj := by
  cases obj with
  | lst xs => simp [Obj.isLst] at h
  | atom n => rfl
  | tup xs => rfl
  | dct m => rfl

theorem LCremove_eq_unit (k : Nat) (cf : ClassFilter) (obj : Obj)
    (s : ObjSpace) (h : obj.isLst = false) :
    LCremove k cf obj s = LCremoveUnit s k cf obj := by
  cases obj with
  | lst xs => simp [Obj.isLst] at h
  | atom n => rfl
  | tup xs => rfl
  | dct m => rfl

/-! ## Claim C1 -/

/-- C1: the claim that both ordered strategies remove **all**
identity-matching occurrences fails on the code.  `TupleCooperation.remove`
does (second conjunct), but `ListCooperation.remove` deletes stale indices
collected before the in-place deletions shift the list: removing the
duplicated atom 1 from the stored list `[1, 1, 2]` deletes positions 0 and 1
of the *shrinking* list, i.e. the first 1 and then 2, and leaves the spurious
`[1]`, demoted to the bare atom 1 — instead of removing both 1s and leaving
the bare atom 2. -/
theorem C1_listCooperation_remove_misses_duplicates :
    LCremove 0 (fun _ => true) (Obj.atom 1)
        [(0, Obj.lst [Obj.atom 1, Obj.atom 1, Obj.atom 2])] =
      (none, [(0, Obj.atom 1)]) ∧
    TCremove 0 (fun _ => true) (Obj.atom 1)
        [(0, Obj.tup [Obj.atom 1, Obj.atom 1, Obj.atom 2])] =
      (none, [(0, Obj.atom 2)]) :=
  ⟨rfl, rfl⟩

/-! ## Claim C3 -/

/-- C3: the claim that `DictCooperation.remove` deletes the partition entry
only when the stored value is identity-equal to the argument fails on the
code: `remove` never compares the argument against the stored value.  Here
the partition slot 1 holds atom 1, a different object from the argument
atom 2 (third conjunct), the argument fits the filter, and `remove` deletes
the entry anyway (and the then-empty primary key), instead of the no-op the
claim requires. -/
theorem C3_dictCooperation_remove_ignores_identity :
    DCremove [(0, Obj.dct [(1, Obj.atom 1)])] 0 1 (fun _ => true)
        (Obj.atom 2) = (none, []) ∧
    (fun (_ : Obj) => true) (Obj.atom 2) = true ∧
    Obj.beq (Obj.atom 1) (Obj.atom 2) = false :=
  ⟨rfl, rfl, rfl⟩

/-! ## Claim C4 -/

/-- C4: the round-trip claim (`add(o)` then `remove(o)` on an absent key
restores the key to absent, for every strategy and every object fitting the
filter) fails on the code: under `ListCooperation`, for the list object
`o = [atom 1, atom 1]` (which fits the all-accepting filter), `add(o)`
flattens and stores the list `[atom 1, atom 1]`, and `remove(o)` then hits
the stale-index deletion bug: it raises `IndexError` and leaves the key
bound to the 1-element list `[atom 1]` instead of deleting it. -/
theorem C4_listCooperation_roundtrip_fails :
    (fun (_ : Obj) => true) (Obj.lst [Obj.atom 1, Obj.atom 1]) = true ∧
    LCadd 0 (fun _ => true) (Obj.lst [Obj.atom 1, Obj.atom 1]) [] =
      (none, [(0, Obj.lst [Obj.atom 1, Obj.atom 1])]) ∧
    LCremove 0 (fun _ => true) (Obj.lst [Obj.atom 1, Obj.atom 1])
        [(0, Obj.lst [Obj.atom 1, Obj.atom 1])] =
      (some Err.indexError, [(0, Obj.lst [Obj.atom 1])]) :=
  ⟨rfl, rfl, rfl⟩

/-! ## Claim C2: counterexample -/

/-- C2 counterexample: flattening is not atomic.  Under `TupleCooperation`
with an atoms-only filter, `add((atom 1, []))` adds atom 1, then raises
`FilterMismatch` on the list element — one of the four errors named by the
claim — leaving the store changed from `{}` to `{0: atom 1}`. -/
theorem C2_counterexample :
    TCadd 0 Obj.isAtom (Obj.tup [Obj.atom 1, Obj.lst []]) [] =
      (some Err.filterMismatch, [(0, Obj.atom 1)]) ∧
    ([] : ObjSpace) ≠ [(0, Obj.atom 1)] :=
  ⟨rfl, by simp⟩

/-! ## Claim C9: counterexample -/

/-- C9 counterexample: the filter check does not apply to a flattened
(own-collection) argument itself.  The empty tuple does not fit the
atoms-only filter, yet `TupleCooperation.add(())` raises nothing — so
`FilterMismatch` is *not* raised exactly when the passed object fails the
filter. -/
theorem C9_counterexample :
    Obj.isAtom (Obj.tup []) = false ∧
    TCadd 0 Obj.isAtom (Obj.tup []) [] = (none, []) :=
  ⟨rfl, rfl⟩

/-! ## Claim C5: counterexample -/

/-- C5 counterexample: two ways a stored collection with fewer than 2
elements is reachable from an absent key.  (1) `TupleCooperation.add`
treats a foreign 1-element Python list as a single object and stores it
bare, so the stored value IS a 1-element collection.  (2) under
`ListCooperation`, `add(atom 1)`, `add(atom 1)`, `remove(atom 1)` leaves the
key bound to the 1-element list `[atom 1]` (the stale-index deletion raises
`IndexError` after deleting only one occurrence). -/
theorem C5_counterexample :
    TCadd 0 (fun _ => true) (Obj.lst [Obj.atom 2]) [] =
      (none, [(0, Obj.lst [Obj.atom 2])]) ∧
    LCadd 0 (fun _ => true) (Obj.atom 1) [] = (none, [(0, Obj.atom 1)]) ∧
    LCadd 0 (fun _ => true) (Obj.atom 1) [(0, Obj.atom 1)] =
      (none, [(0, Obj.lst [Obj.atom 1, Obj.atom 1])]) ∧
    LCremove 0 (fun _ => true) (Obj.atom 1)
        [(0, Obj.lst [Obj.atom 1, Obj.atom 1])] =
      (some Err.indexError, [(0, Obj.lst [Obj.atom 1])]) :=
  ⟨rfl, rfl, rfl, rfl⟩

/-! ## Claim C7 -/

/-- C7: No-Sharing exclusivity.  For any object `o1` fitting the filter
added to an absent key, the add succeeds and stores `o1`; a subsequent
`add(o2)` for any fitting `o2` (including `o2 = o1`) raises
`NoCooperationError` (`overwriteRejected`) and leaves the store unchanged,
still holding exactly `o1` under the key. -/
theorem C7_noCooperation_exclusivity (s : ObjSpace) (k : Nat)
    (cf : ClassFilter) (o1 o2 : Obj) (h1 : cf o1 = true) (h2 : cf o2 = true)
    (habs : getk s k = none) :
    (NCadd s k cf o1).1 = none ∧
    getk (NCadd s k cf o1).2 k = some o1 ∧
    NCiter (NCadd s k cf o1).2 k cf = [o1] ∧
    NCadd (NCadd s k cf o1).2 k cf o2 =
      (some Err.overwriteRejected, (NCadd s k cf o1).2) := by
  have hfirst : NCadd s k cf o1 = (none, setk s k o1) := by
    simp [NCadd, h1, hask, habs]
  have hget : getk (setk s k o1) k = some o1 := getk_setk_self s k o1
  refine ⟨by simp [hfirst], by simp [hfirst, hget], ?_, ?_⟩
  · simp [hfirst, NCiter, hget, h1]
  · rw [hfirst]
    simp [NCadd, h2, hask, hget]

/-- C7 witness: concrete instance with `o2` the very same object as `o1`. -/
theorem C7_witness :
    (NCadd [] 0 (fun _ => true) (Obj.atom 1)).1 = none ∧
    getk (NCadd [] 0 (fun _ => true) (Obj.atom 1)).2 0 = some (Obj.atom 1) ∧
    NCiter (NCadd [] 0 (fun _ => true) (Obj.atom 1)).2 0 (fun _ => true) =
      [Obj.atom 1] ∧
    NCadd (NCadd [] 0 (fun _ => true) (Obj.atom 1)).2 0 (fun _ => true)
        (Obj.atom 1) =
      (some Err.overwriteRejected, (NCadd [] 0 (fun _ => true) (Obj.atom 1)).2) :=
  C7_noCooperation_exclusivity [] 0 (fun _ => true) (Obj.atom 1) (Obj.atom 1)
    rfl rfl rfl

/-! ## Claim C8 -/

/-- C8: partition isolation for `DictCooperation`.  First conjunct: after
`handleA.add(x)` on an initially absent primary key, the add succeeded,
`handleB.iterate()` (same primary key, different partition key) yields
nothing, and `handleA.iterate()` yields exactly `[x]`.  Second conjunct, the
general form: on an absent key `iterate` yields nothing, and on a
partition-map storage it yields at most one object — the one under the
handle's own partition key, when that object fits the filter. -/
theorem C8_dictCooperation_partition_isolation :
    (∀ (s : ObjSpace) (k skA skB : Nat) (cf : ClassFilter) (x : Obj),
      skA ≠ skB → getk s k = none → cf x = true →
      (DCadd s k skA cf x).1 = none ∧
      DCiter (DCadd s k skA cf x).2 k skB cf = [] ∧
      DCiter (DCadd s k skA cf x).2 k skA cf = [x]) ∧
    (∀ (s : ObjSpace) (k sk : Nat) (cf : ClassFilter),
      (getk s k = none → DCiter s k sk cf = []) ∧
      (∀ m, getk s k = some (Obj.dct m) →
        (DCiter s k sk cf).length ≤ 1 ∧
        ∀ o ∈ DCiter s k sk cf, getk m sk = some o ∧ cf o = true)) := by
  constructor
  · intro s k skA skB cf x hne habs hfit
    have hadd : DCadd s k skA cf x = (none, setk s k (Obj.dct [(skA, x)])) := by
      simp [DCadd, hfit, habs]
    have hget : getk (setk s k (Obj.dct [(skA, x)])) k =
        some (Obj.dct [(skA, x)]) := getk_setk_self s k (Obj.dct [(skA, x)])
    refine ⟨by simp [hadd], ?_, ?_⟩
    · simp [hadd, DCiter, hget, getk, hne]
    · simp [hadd, DCiter, hget, getk, hfit]
  · intro s k sk cf
    constructor
    · intro habs
      simp [DCiter, habs]
    · intro m hm
      constructor
      · simp only [DCiter, hm]
        cases getk m sk with
        | none => simp
        | some o => by_cases hc : cf o <;> simp [hc]
      · intro o ho
        simp only [DCiter, hm] at ho
        cases hg : getk m sk with
        | none => rw [hg] at ho; simp at ho
        | some o' =>
          rw [hg] at ho
          by_cases hc : cf o'
          · simp only [hc, if_true, List.mem_singleton] at ho
            rw [ho]
            exact ⟨rfl, hc⟩
          · simp [hc] at ho

/-- C8 witness: the concrete A/B scenario over partition keys 1 and 2. -/
theorem C8_witness :
    (DCadd [] 0 1 (fun _ => true) (Obj.atom 5)).1 = none ∧
    DCiter (DCadd [] 0 1 (fun _ => true) (Obj.atom 5)).2 0 2
      (fun _ => true) = [] ∧
    DCiter (DCadd [] 0 1 (fun _ => true) (Obj.atom 5)).2 0 1
      (fun _ => true) = [Obj.atom 5] :=
  C8_dictCooperation_partition_isolation.1 [] 0 1 2 (fun _ => true)
    (Obj.atom 5) (by decide) rfl rfl

/-! ## Per-operation outcome characterizations -/

theorem NCadd_mismatch (s : ObjSpace) (k : Nat) (cf : ClassFilter) (obj : Obj)
    (h : cf obj = false) : NCadd s k cf obj = (some Err.filterMismatch, s) := by
  simp [NCadd, h]

theorem NCremove_mismatch (s : ObjSpace) (k : Nat) (cf : ClassFilter)
    (obj : Obj) (h : cf obj = false) :
    NCremove s k cf obj = (some Err.filterMismatch, s) := by
  simp [NCremove, h]

theorem TCaddUnit_mismatch (s : ObjSpace) (k : Nat) (cf : ClassFilter)
    (obj : Obj) (h : cf obj = false) :
    TCaddUnit s k cf obj = (some Err.filterMismatch, s) := by
  simp [TCaddUnit, h]

theorem TCremoveUnit_mismatch (s : ObjSpace) (k : Nat) (cf : ClassFilter)
    (obj : Obj) (h : cf obj = false) :
    TCremoveUnit s k cf obj = (some Err.filterMismatch, s) := by
  simp [TCremoveUnit, h]

theorem LCaddUnit_mismatch (s : ObjSpace) (k : Nat) (cf : ClassFilter)
    (obj : Obj) (h : cf obj = false) :
    LCaddUnit s k cf obj = (some Err.filterMismatch, s) := by
  simp [LCaddUnit, h]

theorem LCremoveUnit_mismatch (s : ObjSpace) (k : Nat) (cf : ClassFilter)
    (obj : Obj) (h : cf obj = false) :
    LCremoveUnit s k cf obj = (some Err.filterMismatch, s) := by
  simp [LCremoveUnit, h]

theorem DCadd_mismatch (s : ObjSpace) (k sk : Nat) (cf : ClassFilter)
    (obj : Obj) (h : cf obj = false) :
    DCadd s k sk cf obj = (some Err.filterMismatch, s) := by
  simp [DCadd, h]

theorem DCremove_mismatch (s : ObjSpace) (k sk : Nat) (cf : ClassFilter)
    (obj : Obj) (h : cf obj = false) :
    DCremove s k sk cf obj = (some Err.filterMismatch, s) := by
  simp [DCremove, h]

theorem NCadd_fit_cases (s : ObjSpace) (k : Nat) (cf : ClassFilter)
    (obj : Obj) (h : cf obj = true) :
    (NCadd s k cf obj).1 = none ∨
      NCadd s k cf obj = (some Err.overwriteRejected, s) := by
  by_cases hh : hask s k = true
  · right; simp [NCadd, h, hh]
  · left; simp [NCadd, h, hh]

theorem NCremove_fit (s : ObjSpace) (k : Nat) (cf : ClassFilter) (obj : Obj)
    (h : cf obj = true) : (NCremove s k cf obj).1 = none := by
  cases hg : getk s k with
  | none => simp [NCremove, h, hg]
  | some st =>
    by_cases hb : Obj.beq st obj <;> simp [NCremove, h, hg, hb]

theorem TCaddUnit_fit (s : ObjSpace) (k : Nat) (cf : ClassFilter) (obj : Obj)
    (h : cf obj = true) : (TCaddUnit s k cf obj).1 = none := by
  cases hg : getk s k with
  | none => simp [TCaddUnit, h, hg]
  | some st => cases st <;> simp [TCaddUnit, h, hg]

theorem LCaddUnit_fit (s : ObjSpace) (k : Nat) (cf : ClassFilter) (obj : Obj)
    (h : cf obj = true) : (LCaddUnit s k cf obj).1 = none := by
  cases hg : getk s k with
  | none => simp [LCaddUnit, h, hg]
  | some st => cases st <;> simp [LCaddUnit, h, hg]

theorem TCremoveUnit_fit (s : ObjSpace) (k : Nat) (cf : ClassFilter)
    (obj : Obj) (h : cf obj = true) : (TCremoveUnit s k cf obj).1 = none := by
  cases hg : getk s k with
  | none => simp [TCremoveUnit, h, hg]
  | some st =>
    cases st with
    | tup xs =>
      simp only [TCremoveUnit, h, hg, not_true_eq_false, Bool.not_eq_true,
        if_false]
      split
      · split <;> rfl
      · rfl
    | atom n => by_cases hb : Obj.beq (Obj.atom n) obj <;>
        simp [TCremoveUnit, h, hg, hb]
    | lst xs => by_cases hb : Obj.beq (Obj.lst xs) obj <;>
        simp [TCremoveUnit, h, hg, hb]
    | dct m => by_cases hb : Obj.beq (Obj.dct m) obj <;>
        simp [TCremoveUnit, h, hg, hb]

theorem LCremoveUnit_fit_cases (s : ObjSpace) (k : Nat) (cf : ClassFilter)
    (obj : Obj) (h : cf obj = true) :
    (LCremoveUnit s k cf obj).1 = none ∨
      (LCremoveUnit s k cf obj).1 = some Err.indexError := by
  cases hg : getk s k with
  | none => left; simp [LCremoveUnit, h, hg]
  | some st =>
    cases st with
    | lst xs =>
      simp only [LCremoveUnit, h, hg]
      rcases hd : delIdxs xs ((List.range xs.length).filter
          (fun i => Obj.beq (xs.getD i (Obj.atom 0)) obj)) with ⟨ok, xs'⟩
      cases ok with
      | false => right; simp [hd]
      | true => left; cases xs' with
        | nil => simp [hd]
        | cons y ys => cases ys <;> simp [hd]
    | atom n => left; by_cases hb : Obj.beq (Obj.atom n) obj <;>
        simp [LCremoveUnit, h, hg, hb]
    | tup xs => left; by_cases hb : Obj.beq (Obj.tup xs) obj <;>
        simp [LCremoveUnit, h, hg, hb]
    | dct m => left; by_cases hb : Obj.beq (Obj.dct m) obj <;>
        simp [LCremoveUnit, h, hg, hb]

theorem DCadd_fit_cases (s : ObjSpace) (k sk : Nat) (cf : ClassFilter)
    (obj : Obj) (h : cf obj = true) :
    (DCadd s k sk cf obj).1 = none ∨
      DCadd s k sk cf obj = (some Err.partitionOverwriteRejected, s) ∨
      DCadd s k sk cf obj = (some Err.incompatibleStorage, s) := by
  cases hg : getk s k with
  | none => left; simp [DCadd, h, hg]
  | some st =>
    cases st with
    | dct m =>
      by_cases hh : hask m sk = true
      · right; left; simp [DCadd, h, hg, hh]
      · left; simp [DCadd, h, hg, hh]
    | atom n => right; right; simp [DCadd, h, hg]
    | tup xs => right; right; simp [DCadd, h, hg]
    | lst xs => right; right; simp [DCadd, h, hg]

theorem DCremove_fit_cases (s : ObjSpace) (k sk : Nat) (cf : ClassFilter)
    (obj : Obj) (h : cf obj = true) :
    (DCremove s k sk cf obj).1 = none ∨
      DCremove s k sk cf obj = (some Err.incompatibleStorage, s) := by
  cases hg : getk s k with
  | none => left; simp [DCremove, h, hg]
  | some st =>
    cases st with
    | dct m =>
      left
      by_cases hh : hask m sk = true
      · cases hdel : delk m sk <;> simp [DCremove, h, hg, hh, hdel]
      · simp [DCremove, h, hg, hh]
    | atom n => right; simp [DCremove, h, hg]
    | tup xs => right; simp [DCremove, h, hg]
    | lst xs => right; simp [DCremove, h, hg]

/-! ## Claim C2: amended theorem -/

/-- C2 (amended): for every strategy and every store state, when a call to
`add` or `remove` with a NON-COLLECTION argument (for the ordered strategies:
not of the strategy's own collection type, hence not flattened) raises one of
the four specification errors — `FilterMismatch`, `OverwriteRejected`,
`PartitionOverwriteRejected`, `IncompatibleStorage` — the store after the
call equals the store before it.  (The original claim also covered flattened
collection arguments; `C2_counterexample` shows those can leave earlier
elements applied.) -/
theorem C2_error_atomicity (s : ObjSpace) (k sk : Nat) (cf : ClassFilter)
    (obj : Obj) (e : Err) (he : specErr e) :
    ((NCadd s k cf obj).1 = some e → (NCadd s k cf obj).2 = s) ∧
    ((NCremove s k cf obj).1 = some e → (NCremove s k cf obj).2 = s) ∧
    (obj.isTup = false →
      (TCadd k cf obj s).1 = some e → (TCadd k cf obj s).2 = s) ∧
    (obj.isTup = false →
      (TCremove k cf obj s).1 = some e → (TCremove k cf obj s).2 = s) ∧
    (obj.isLst = false →
      (LCadd k cf obj s).1 = some e → (LCadd k cf obj s).2 = s) ∧
    (obj.isLst = false →
      (LCremove k cf obj s).1 = some e → (LCremove k cf obj s).2 = s) ∧
    ((DCadd s k sk cf obj).1 = some e → (DCadd s k sk cf obj).2 = s) ∧
    ((DCremove s k sk cf obj).1 = some e → (DCremove s k sk cf obj).2 = s) := by
  by_cases hcf : cf obj = true
  · refine ⟨?_, ?_, ?_, ?_, ?_, ?_, ?_, ?_⟩
    · intro h1
      rcases NCadd_fit_cases s k cf obj hcf with hn | ho
      · rw [h1] at hn; simp at hn
      · rw [ho]
    · intro h2
      have hn := NCremove_fit s k cf obj hcf
      rw [h2] at hn; simp at hn
    · intro ht h3
      rw [TCadd_eq_unit k cf obj s ht] at h3 ⊢
      have hn := TCaddUnit_fit s k cf obj hcf
      rw [h3] at hn; simp at hn
    · intro ht h4
      rw [TCremove_eq_unit k cf obj s ht] at h4 ⊢
      have hn := TCremoveUnit_fit s k cf obj hcf
      rw [h4] at hn; simp at hn
    · intro hl h5
      rw [LCadd_eq_unit k cf obj s hl] at h5 ⊢
      have hn := LCaddUnit_fit s k cf obj hcf
      rw [h5] at hn; simp at hn
    · intro hl h6
      rw [LCremove_eq_unit k cf obj s hl] at h6 ⊢
      rcases LCremoveUnit_fit_cases s k cf obj hcf with hn | hi
      · rw [h6] at hn; simp at hn
      · rw [h6] at hi
        rcases he with rfl | rfl | rfl | rfl <;> simp at hi
    · intro h7
      rcases DCadd_fit_cases s k sk cf obj hcf with hn | ho | ho
      · rw [h7] at hn; simp at hn
      · rw [ho]
      · rw [ho]
    · intro h8
      rcases DCremove_fit_cases s k sk cf obj hcf with hn | ho
      · rw [h8] at hn; simp at hn
      · rw [ho]
  · have hcf' : cf obj = false := by simpa using hcf
    refine ⟨?_, ?_, ?_, ?_, ?_, ?_, ?_, ?_⟩
    · intro _; rw [NCadd_mismatch s k cf obj hcf']
    · intro _; rw [NCremove_mismatch s k cf obj hcf']
    · intro ht _
      rw [TCadd_eq_unit k cf obj s ht, TCaddUnit_mismatch s k cf obj hcf']
    · intro ht _
      rw [TCremove_eq_unit k cf obj s ht,
        TCremoveUnit_mismatch s k cf obj hcf']
    · intro hl _
      rw [LCadd_eq_unit k cf obj s hl, LCaddUnit_mismatch s k cf obj hcf']
    · intro hl _
      rw [LCremove_eq_unit k cf obj s hl,
        LCremoveUnit_mismatch s k cf obj hcf']
    · intro _; rw [DCadd_mismatch s k sk cf obj hcf']
    · intro _; rw [DCremove_mismatch s k sk cf obj hcf']

/-- C2 witness: a rejected second `NoCooperation.add` leaves the concrete
store `{0: atom 1}` unchanged. -/
theorem C2_witness :
    (NCadd [(0, Obj.atom 1)] 0 (fun _ => true) (Obj.atom 2)).2 =
      [(0, Obj.atom 1)] :=
  (C2_error_atomicity [(0, Obj.atom 1)] 0 0 (fun _ => true) (Obj.atom 2)
    Err.overwriteRejected (Or.inr (Or.inl rfl))).1 rfl

/-! ## Claim C9: amended theorem -/

/-- C9 (amended): for every strategy, `add`/`remove` with a NON-COLLECTION
argument (for the ordered strategies: not of the strategy's own collection
type, hence not flattened) raises `FilterMismatch` exactly when the argument
does not fit the class filter, and in that case the store is left unchanged
— the filter check precedes any mutation.  (The original claim also covered
flattened collection arguments; `C9_counterexample` shows the collection
itself is never filter-checked.) -/
theorem C9_filterMismatch_characterization (s : ObjSpace) (k sk : Nat)
    (cf : ClassFilter) (obj : Obj) :
    (((NCadd s k cf obj).1 = some Err.filterMismatch ↔ cf obj = false) ∧
      (cf obj = false → (NCadd s k cf obj).2 = s)) ∧
    (((NCremove s k cf obj).1 = some Err.filterMismatch ↔ cf obj = false) ∧
      (cf obj = false → (NCremove s k cf obj).2 = s)) ∧
    (obj.isTup = false →
      ((TCadd k cf obj s).1 = some Err.filterMismatch ↔ cf obj = false) ∧
      (cf obj = false → (TCadd k cf obj s).2 = s)) ∧
    (obj.isTup = false →
      ((TCremove k cf obj s).1 = some Err.filterMismatch ↔ cf obj = false) ∧
      (cf obj = false → (TCremove k cf obj s).2 = s)) ∧
    (obj.isLst = false →
      ((LCadd k cf obj s).1 = some Err.filterMismatch ↔ cf obj = false) ∧
      (cf obj = false → (LCadd k cf obj s).2 = s)) ∧
    (obj.isLst = false →
      ((LCremove k cf obj s).1 = some Err.filterMismatch ↔ cf obj = false) ∧
      (cf obj = false → (LCremove k cf obj s).2 = s)) ∧
    (((DCadd s k sk cf obj).1 = some Err.filterMismatch ↔ cf obj = false) ∧
      (cf obj = false → (DCadd s k sk cf obj).2 = s)) ∧
    (((DCremove s k sk cf obj).1 = some Err.filterMismatch ↔ cf obj = false) ∧
      (cf obj = false → (DCremove s k sk cf obj).2 = s)) := by
  refine ⟨⟨⟨?_, ?_⟩, ?_⟩, ⟨⟨?_, ?_⟩, ?_⟩, ?_, ?_, ?_, ?_, ⟨⟨?_, ?_⟩, ?_⟩,
    ⟨⟨?_, ?_⟩, ?_⟩⟩
  · intro hm
    by_cases hcf : cf obj = true
    · rcases NCadd_fit_cases s k cf obj hcf with hn | ho
      · rw [hm] at hn; simp at hn
      · rw [ho] at hm; simp at hm
    · simpa using hcf
  · intro hf; rw [NCadd_mismatch s k cf obj hf]
  · intro hf; rw [NCadd_mismatch s k cf obj hf]
  · intro hm
    by_cases hcf : cf obj = true
    · have hn := NCremove_fit s k cf obj hcf
      rw [hm] at hn; simp at hn
    · simpa using hcf
  · intro hf; rw [NCremove_mismatch s k cf obj hf]
  · intro hf; rw [NCremove_mismatch s k cf obj hf]
  · intro ht
    rw [TCadd_eq_unit k cf obj s ht]
    refine ⟨⟨?_, ?_⟩, ?_⟩
    · intro hm
      by_cases hcf : cf obj = true
      · have hn := TCaddUnit_fit s k cf obj hcf
        rw [hm] at hn; simp at hn
      · simpa using hcf
    · intro hf; rw [TCaddUnit_mismatch s k cf obj hf]
    · intro hf; rw [TCaddUnit_mismatch s k cf obj hf]
  · intro ht
    rw [TCremove_eq_unit k cf obj s ht]
    refine ⟨⟨?_, ?_⟩, ?_⟩
    · intro hm
      by_cases hcf : cf obj = true
      · have hn := TCremoveUnit_fit s k cf obj hcf
        rw [hm] at hn; simp at hn
      · simpa using hcf
    · intro hf; rw [TCremoveUnit_mismatch s k cf obj hf]
    · intro hf; rw [TCremoveUnit_mismatch s k cf obj hf]
  · intro hl
    rw [LCadd_eq_unit k cf obj s hl]
    refine ⟨⟨?_, ?_⟩, ?_⟩
    · intro hm
      by_cases hcf : cf obj = true
      · have hn := LCaddUnit_fit s k cf obj hcf
        rw [hm] at hn; simp at hn
      · simpa using hcf
    · intro hf; rw [LCaddUnit_mismatch s k cf obj hf]
    · intro hf; rw [LCaddUnit_mismatch s k cf obj hf]
  · intro hl
    rw [LCremove_eq_unit k cf obj s hl]
    refine ⟨⟨?_, ?_⟩, ?_⟩
    · intro hm
      by_cases hcf : cf obj = true
      · rcases LCremoveUnit_fit_cases s k cf obj hcf with hn | hi
        · rw [hm] at hn; simp at hn
        · rw [hm] at hi; simp at hi
      · simpa using hcf
    · intro hf; rw [LCremoveUnit_mismatch s k cf obj hf]
    · intro hf; rw [LCremoveUnit_mismatch s k cf obj hf]
  · intro hm
    by_cases hcf : cf obj = true
    · rcases DCadd_fit_cases s k sk cf obj hcf with hn | ho | ho
      · rw [hm] at hn; simp at hn
      · rw [ho] at hm; simp at hm
      · rw [ho] at hm; simp at hm
    · simpa using hcf
  · intro hf; rw [DCadd_mismatch s k sk cf obj hf]
  · intro hf; rw [DCadd_mismatch s k sk cf obj hf]
  · intro hm
    by_cases hcf : cf obj = true
    · rcases DCremove_fit_cases s k sk cf obj hcf with hn | ho
      · rw [hm] at hn; simp at hn
      · rw [ho] at hm; simp at hm
    · simpa using hcf
  · intro hf; rw [DCremove_mismatch s k sk cf obj hf]
  · intro hf; rw [DCremove_mismatch s k sk cf obj hf]

/-- C9 witness: a list object under an atoms-only filter is rejected by
`NoCooperation.add` with `FilterMismatch`, store unchanged. -/
theorem C9_witness :
    (NCadd [] 0 Obj.isAtom (Obj.lst [])).1 = some Err.filterMismatch ∧
    (NCadd [] 0 Obj.isAtom (Obj.lst [])).2 = [] :=
  ⟨(C9_filterMismatch_characterization [] 0 0 Obj.isAtom
      (Obj.lst [])).1.1.mpr rfl,
    (C9_filterMismatch_characterization [] 0 0 Obj.isAtom
      (Obj.lst [])).1.2 rfl⟩

/-! ## Order preservation helpers -/

theorem filter_all_true {p : Obj → Bool} {l : List Obj}
    (h : ∀ o ∈ l, p o = true) : l.filter p = l := by
  induction l with
  | nil => rfl
  | cons x xs ih =>
    have hx := h x (List.mem_cons_self x xs)
    simp [List.filter, hx, ih fun o ho => h o (List.mem_cons_of_mem x ho)]

theorem TCaddUnit_absent (s : ObjSpace) (k : Nat) (cf : ClassFilter)
    (obj : Obj) (hfit : cf obj = true) (habs : getk s k = none) :
    TCaddUnit s k cf obj = (none, setk s k obj) := by
  simp [TCaddUnit, hfit, habs]

theorem TCaddUnit_single (s : ObjSpace) (k : Nat) (cf : ClassFilter)
    (obj st : Obj) (hfit : cf obj = true) (hget : getk s k = some st)
    (hst : st.isTup = false) :
    TCaddUnit s k cf obj = (none, setk s k (Obj.tup [st, obj])) := by
  cases st with
  | tup xs => simp [Obj.isTup] at hst
  | atom n => simp [TCaddUnit, hfit, hget]
  | lst xs => simp [TCaddUnit, hfit, hget]
  | dct m => simp [TCaddUnit, hfit, hget]

theorem TCaddUnit_tuple (s : ObjSpace) (k : Nat) (cf : ClassFilter)
    (obj : Obj) (xs : List Obj) (hfit : cf obj = true)
    (hget : getk s k = some (Obj.tup xs)) :
    TCaddUnit s k cf obj = (none, setk s k (Obj.tup (xs ++ [obj]))) := by
  simp [TCaddUnit, hfit, hget]

theorem LCaddUnit_absent (s : ObjSpace) (k : Nat) (cf : ClassFilter)
    (obj : Obj) (hfit : cf obj = true) (habs : getk s k = none) :
    LCaddUnit s k cf obj = (none, setk s k obj) := by
  simp [LCaddUnit, hfit, habs]

theorem LCaddUnit_single (s : ObjSpace) (k : Nat) (cf : ClassFilter)
    (obj st : Obj) (hfit : cf obj = true) (hget : getk s k = some st)
    (hst : st.isLst = false) :
    LCaddUnit s k cf obj = (none, setk s k (Obj.lst [st, obj])) := by
  cases st with
  | lst xs => simp [Obj.isLst] at hst
  | atom n => simp [LCaddUnit, hfit, hget]
  | tup xs => simp [LCaddUnit, hfit, hget]
  | dct m => simp [LCaddUnit, hfit, hget]

theorem LCaddUnit_list (s : ObjSpace) (k : Nat) (cf : ClassFilter)
    (obj : Obj) (xs : List Obj) (hfit : cf obj = true)
    (hget : getk s k = some (Obj.lst xs)) :
    LCaddUnit s k cf obj = (none, setk s k (Obj.lst (xs ++ [obj]))) := by
  simp [LCaddUnit, hfit, hget]

/-- Adding a sequence of fitting non-tuple objects onto a tuple storage
appends them all, in order. -/
theorem TCaddSeq_tuple_acc (k : Nat) (cf : ClassFilter) :
    ∀ (os : List Obj) (s : ObjSpace) (acc : List Obj),
      (∀ o ∈ os, cf o = true ∧ o.isTup = false) →
      getk s k = some (Obj.tup acc) →
      getk (TCaddSeq k cf os s) k = some (Obj.tup (acc ++ os)) := by
  intro os
  induction os with
  | nil =>
    intro s acc _ hget
    simpa [TCaddSeq] using hget
  | cons o os ih =>
    intro s acc hall hget
    have ho := hall o (List.mem_cons_self o os)
    have hstep : TCadd k cf o s = (none, setk s k (Obj.tup (acc ++ [o]))) := by
      rw [TCadd_eq_unit k cf o s ho.2]
      exact TCaddUnit_tuple s k cf o acc ho.1 hget
    have hrec := ih (setk s k (Obj.tup (acc ++ [o]))) (acc ++ [o])
      (fun o' ho' => hall o' (List.mem_cons_of_mem o ho'))
      (getk_setk_self s k (Obj.tup (acc ++ [o])))
    have hseq : TCaddSeq k cf (o :: os) s =
        TCaddSeq k cf os (setk s k (Obj.tup (acc ++ [o]))) := by
      simp [TCaddSeq, hstep]
    rw [hseq, hrec]
    simp

/-- Adding a sequence of fitting non-list objects onto a list storage
appends them all, in order. -/
theorem LCaddSeq_list_acc (k : Nat) (cf : ClassFilter) :
    ∀ (os : List Obj) (s : ObjSpace) (acc : List Obj),
      (∀ o ∈ os, cf o = true ∧ o.isLst = false) →
      getk s k = some (Obj.lst acc) →
      getk (LCaddSeq k cf os s) k = some (Obj.lst (acc ++ os)) := by
  intro os
  induction os with
  | nil =>
    intro s acc _ hget
    simpa [LCaddSeq] using hget
  | cons o os ih =>
    intro s acc hall hget
    have ho := hall o (List.mem_cons_self o os)
    have hstep : LCadd k cf o s = (none, setk s k (Obj.lst (acc ++ [o]))) := by
      rw [LCadd_eq_unit k cf o s ho.2]
      exact LCaddUnit_list s k cf o acc ho.1 hget
    have hrec := ih (setk s k (Obj.lst (acc ++ [o]))) (acc ++ [o])
      (fun o' ho' => hall o' (List.mem_cons_of_mem o ho'))
      (getk_setk_self s k (Obj.lst (acc ++ [o])))
    have hseq : LCaddSeq k cf (o :: os) s =
        LCaddSeq k cf os (setk s k (Obj.lst (acc ++ [o]))) := by
      simp [LCaddSeq, hstep]
    rw [hseq, hrec]
    simp

/-! ## Claim C6 -/

/-- C6: order preservation for both ordered strategies.  For `n ≥ 2` objects
each fitting the class filter and none of the strategy's own collection
type, performing the adds in order under an initially absent key makes
`iterate()` yield exactly the objects in insertion order. -/
theorem C6_order_preservation (s : ObjSpace) (k : Nat) (cf : ClassFilter)
    (os : List Obj) (hlen : 2 ≤ os.length) (hfit : ∀ o ∈ os, cf o = true)
    (habs : getk s k = none) :
    ((∀ o ∈ os, o.isTup = false) → TCiter (TCaddSeq k cf os s) k cf = os) ∧
    ((∀ o ∈ os, o.isLst = false) → LCiter (LCaddSeq k cf os s) k cf = os) := by
  match os, hlen with
  | o1 :: o2 :: rest, _ =>
    constructor
    · intro hnt
      have h1 : TCadd k cf o1 s = (none, setk s k o1) := by
        rw [TCadd_eq_unit k cf o1 s (hnt o1 (by simp))]
        exact TCaddUnit_absent s k cf o1 (hfit o1 (by simp)) habs
      have h2 : TCadd k cf o2 (setk s k o1) =
          (none, setk (setk s k o1) k (Obj.tup [o1, o2])) := by
        rw [TCadd_eq_unit k cf o2 (setk s k o1) (hnt o2 (by simp))]
        exact TCaddUnit_single (setk s k o1) k cf o2 o1 (hfit o2 (by simp))
          (getk_setk_self s k o1) (hnt o1 (by simp))
      have hseq : TCaddSeq k cf (o1 :: o2 :: rest) s =
          TCaddSeq k cf rest (setk (setk s k o1) k (Obj.tup [o1, o2])) := by
        simp [TCaddSeq, h1, h2]
      have hget := TCaddSeq_tuple_acc k cf rest
        (setk (setk s k o1) k (Obj.tup [o1, o2])) [o1, o2]
        (fun o' ho' => ⟨hfit o' (by simp [ho']), hnt o' (by simp [ho'])⟩)
        (getk_setk_self (setk s k o1) k (Obj.tup [o1, o2]))
      rw [hseq]
      simp only [TCiter, hget, List.cons_append, List.nil_append]
      exact filter_all_true hfit
    · intro hnl
      have h1 : LCadd k cf o1 s = (none, setk s k o1) := by
        rw [LCadd_eq_unit k cf o1 s (hnl o1 (by simp))]
        exact LCaddUnit_absent s k cf o1 (hfit o1 (by simp)) habs
      have h2 : LCadd k cf o2 (setk s k o1) =
          (none, setk (setk s k o1) k (Obj.lst [o1, o2])) := by
        rw [LCadd_eq_unit k cf o2 (setk s k o1) (hnl o2 (by simp))]
        exact LCaddUnit_single (setk s k o1) k cf o2 o1 (hfit o2 (by simp))
          (getk_setk_self s k o1) (hnl o1 (by simp))
      have hseq : LCaddSeq k cf (o1 :: o2 :: rest) s =
          LCaddSeq k cf rest (setk (setk s k o1) k (Obj.lst [o1, o2])) := by
        simp [LCaddSeq, h1, h2]
      have hget := LCaddSeq_list_acc k cf rest
        (setk (setk s k o1) k (Obj.lst [o1, o2])) [o1, o2]
        (fun o' ho' => ⟨hfit o' (by simp [ho']), hnl o' (by simp [ho'])⟩)
        (getk_setk_self (setk s k o1) k (Obj.lst [o1, o2]))
      rw [hseq]
      simp only [LCiter, hget, List.cons_append, List.nil_append]
      exact filter_all_true hfit

/-- C6 witness: three atoms added under an absent key come back in insertion
order from both ordered strategies. -/
theorem C6_witness :
    TCiter (TCaddSeq 0 (fun _ => true)
      [Obj.atom 1, Obj.atom 2, Obj.atom 3] []) 0 (fun _ => true) =
      [Obj.atom 1, Obj.atom 2, Obj.atom 3] ∧
    LCiter (LCaddSeq 0 (fun _ => true)
      [Obj.atom 1, Obj.atom 2, Obj.atom 3] []) 0 (fun _ => true) =
      [Obj.atom 1, Obj.atom 2, Obj.atom 3] := by
  have h := C6_order_preservation [] 0 (fun _ => true)
    [Obj.atom 1, Obj.atom 2, Obj.atom 3] (by simp)
    (fun o _ => rfl) rfl
  exact ⟨h.1 (by intro o ho; fin_cases ho <;> rfl),
    h.2 (by intro o ho; fin_cases ho <;> rfl)⟩

/-! ## Claim C10 -/

/-- C10: flattening applies only to the strategy's own collection type.
`TupleCooperation.add` treats a Python list argument as a single stored
object subject to the filter (stored bare on an absent key when it fits,
`FilterMismatch` when it does not), and symmetrically `ListCooperation.add`
treats a tuple argument as a single stored object; adding the strategy's own
empty collection is a silent no-op on any store, for both strategies. -/
theorem C10_flattening_only_own_collection_type (s : ObjSpace) (k : Nat)
    (cf : ClassFilter) (xs : List Obj) :
    (cf (Obj.lst xs) = true → getk s k = none →
      TCadd k cf (Obj.lst xs) s = (none, setk s k (Obj.lst xs))) ∧
    (cf (Obj.lst xs) = false →
      TCadd k cf (Obj.lst xs) s = (some Err.filterMismatch, s)) ∧
    (cf (Obj.tup xs) = true → getk s k = none →
      LCadd k cf (Obj.tup xs) s = (none, setk s k (Obj.tup xs))) ∧
    (cf (Obj.tup xs) = false →
      LCadd k cf (Obj.tup xs) s = (some Err.filterMismatch, s)) ∧
    TCadd k cf (Obj.tup []) s = (none, s) ∧
    LCadd k cf (Obj.lst []) s = (none, s) := by
  refine ⟨?_, ?_, ?_, ?_, rfl, rfl⟩
  · intro hfit habs
    simp [TCadd, TCaddUnit, hfit, habs]
  · intro hmis
    simp [TCadd, TCaddUnit, hmis]
  · intro hfit habs
    simp [LCadd, LCaddUnit, hfit, habs]
  · intro hmis
    simp [LCadd, LCaddUnit, hmis]

/-- C10 witness: a 1-element list stored bare by `TupleCooperation.add`,
rejected under an atoms-only filter, and both empty-collection no-ops, at
concrete inputs. -/
theorem C10_witness :
    TCadd 0 (fun _ => true) (Obj.lst [Obj.atom 7]) [] =
      (none, setk [] 0 (Obj.lst [Obj.atom 7])) ∧
    TCadd 0 Obj.isAtom (Obj.lst [Obj.atom 7]) [] =
      (some Err.filterMismatch, []) ∧
    LCadd 0 (fun _ => true) (Obj.tup [Obj.atom 7]) [] =
      (none, setk [] 0 (Obj.tup [Obj.atom 7])) ∧
    LCadd 0 Obj.isAtom (Obj.tup [Obj.atom 7]) [] =
      (some Err.filterMismatch, []) ∧
    TCadd 0 (fun _ => true) (Obj.tup []) ([] : ObjSpace) = (none, []) ∧
    LCadd 0 (fun _ => true) (Obj.lst []) ([] : ObjSpace) = (none, []) := by
  have h := C10_flattening_only_own_collection_type [] 0 (fun _ => true)
    [Obj.atom 7]
  have h' := C10_flattening_only_own_collection_type [] 0 Obj.isAtom
    [Obj.atom 7]
  exact ⟨h.1 rfl rfl, h'.2.1 rfl, h.2.2.1 rfl rfl, h'.2.2.2.1 rfl,
    h.2.2.2.2.1, h.2.2.2.2.2⟩

/-! ## Tuple storage-shape invariant preservation -/

theorem TCvalInv_of_not_tup (o : Obj) (h : o.isTup = false) : TCvalInv o := by
  cases o with
  | tup xs => simp [Obj.isTup] at h
  | atom n => trivial
  | lst xs => trivial
  | dct m => trivial

theorem TCgood_setk (s : ObjSpace) (k : Nat) (v : Obj)
    (hnd : keysNodup s) (hv : TCvalInv v) : TCgood (setk s k v) k := by
  refine ⟨keysNodup_setk s k v hnd, ?_⟩
  intro w hw
  rw [getk_setk_self] at hw
  cases hw
  exact hv

theorem TCgood_delk (s : ObjSpace) (k : Nat) (hnd : keysNodup s) :
    TCgood (delk s k) k := by
  refine ⟨keysNodup_delk s k hnd, ?_⟩
  intro w hw
  rw [getk_delk_self s k hnd] at hw
  cases hw

theorem TCaddUnit_good (s : ObjSpace) (k : Nat) (cf : ClassFilter)
    (obj : Obj) (hobj : obj.isTup = false) (hg : TCgood s k) :
    TCgood (TCaddUnit s k cf obj).2 k := by
  by_cases hcf : cf obj = true
  · cases hgk : getk s k with
    | none =>
      rw [TCaddUnit_absent s k cf obj hcf hgk]
      exact TCgood_setk s k obj hg.1 (TCvalInv_of_not_tup obj hobj)
    | some st =>
      cases st with
      | tup xs =>
        rw [TCaddUnit_tuple s k cf obj xs hcf hgk]
        have hinv : TCvalInv (Obj.tup xs) := hg.2 _ hgk
        obtain ⟨hlen, helems⟩ := hinv
        refine TCgood_setk s k _ hg.1 ⟨?_, ?_⟩
        · simp only [List.length_append, List.length_singleton]
          omega
        · intro o ho
          rcases List.mem_append.mp ho with h1 | h2
          · exact helems o h1
          · rw [List.mem_singleton.mp h2]
            exact hobj
      | atom n =>
        rw [TCaddUnit_single s k cf obj (Obj.atom n) hcf hgk rfl]
        refine TCgood_setk s k _ hg.1 ⟨by simp, ?_⟩
        intro o ho
        rcases List.mem_cons.mp ho with rfl | ho'
        · rfl
        · rw [List.mem_singleton.mp ho']
          exact hobj
      | lst xs =>
        rw [TCaddUnit_single s k cf obj (Obj.lst xs) hcf hgk rfl]
        refine TCgood_setk s k _ hg.1 ⟨by simp, ?_⟩
        intro o ho
        rcases List.mem_cons.mp ho with rfl | ho'
        · rfl
        · rw [List.mem_singleton.mp ho']
          exact hobj
      | dct m =>
        rw [TCaddUnit_single s k cf obj (Obj.dct m) hcf hgk rfl]
        refine TCgood_setk s k _ hg.1 ⟨by simp, ?_⟩
        intro o ho
        rcases List.mem_cons.mp ho with rfl | ho'
        · rfl
        · rw [List.mem_singleton.mp ho']
          exact hobj
  · have hcf' : cf obj = false := by simpa using hcf
    rw [TCaddUnit_mismatch s k cf obj hcf']
    exact hg

theorem TCremoveUnit_absent (s : ObjSpace) (k : Nat) (cf : ClassFilter)
    (obj : Obj) (hcf : cf obj = true) (hgk : getk s k = none) :
    TCremoveUnit s k cf obj = (none, s) := by
  simp [TCremoveUnit, hcf, hgk]

theorem TCremoveUnit_tuple_eq (s : ObjSpace) (k : Nat) (cf : ClassFilter)
    (obj : Obj) (xs : List Obj) (hcf : cf obj = true)
    (hgk : getk s k = some (Obj.tup xs)) :
    TCremoveUnit s k cf obj =
      (let filtered := xs.filter (fun a => ¬ Obj.beq a obj)
       if filtered.length < xs.length then
         match filtered with
         | [] => (none, delk s k)
         | [x] => (none, setk s k x)
         | _ => (none, setk s k (Obj.tup filtered))
       else (none, s)) := by
  simp [TCremoveUnit, hcf, hgk]

theorem TCremoveUnit_good (s : ObjSpace) (k : Nat) (cf : ClassFilter)
    (obj : Obj) (hg : TCgood s k) : TCgood (TCremoveUnit s k cf obj).2 k := by
  by_cases hcf : cf obj = true
  · cases hgk : getk s k with
    | none =>
      rw [TCremoveUnit_absent s k cf obj hcf hgk]
      exact hg
    | some st =>
      cases st with
      | tup xs =>
        obtain ⟨hlen, helems⟩ := hg.2 _ hgk
        rw [TCremoveUnit_tuple_eq s k cf obj xs hcf hgk]
        cases hfil : xs.filter (fun a => ¬ Obj.beq a obj) with
        | nil =>
          by_cases hlt : (List.length ([] : List Obj)) < xs.length
          · simp only [if_pos hlt]
            exact TCgood_delk s k hg.1
          · simp only [if_neg hlt]
            exact hg
        | cons y ys =>
          cases ys with
          | nil =>
            by_cases hlt : [y].length < xs.length
            · simp only [if_pos hlt]
              have hyf : y ∈ xs.filter (fun a => ¬ Obj.beq a obj) := by
                rw [hfil]
                exact List.mem_singleton_self y
              have hy : y ∈ xs := (List.mem_filter.mp hyf).1
              exact TCgood_setk s k y hg.1
                (TCvalInv_of_not_tup y (helems y hy))
            · simp only [if_neg hlt]
              exact hg
          | cons z zs =>
            by_cases hlt : (y :: z :: zs).length < xs.length
            · simp only [if_pos hlt]
              refine TCgood_setk s k _ hg.1 ⟨by simp, ?_⟩
              intro o ho
              have hof : o ∈ xs.filter (fun a => ¬ Obj.beq a obj) := by
                rw [hfil]
                exact ho
              exact helems o (List.mem_filter.mp hof).1
            · simp only [if_neg hlt]
              exact hg
      | atom n =>
        by_cases hb : Obj.beq (Obj.atom n) obj = true
        · have heq : TCremoveUnit s k cf obj = (none, delk s k) := by
            simp [TCremoveUnit, hcf, hgk, hb]
          rw [heq]
          exact TCgood_delk s k hg.1
        · have heq : TCremoveUnit s k cf obj = (none, s) := by
            simp [TCremoveUnit, hcf, hgk, hb]
          rw [heq]
          exact hg
      | lst xs =>
        by_cases hb : Obj.beq (Obj.lst xs) obj = true
        · have heq : TCremoveUnit s k cf obj = (none, delk s k) := by
            simp [TCremoveUnit, hcf, hgk, hb]
          rw [heq]
          exact TCgood_delk s k hg.1
        · have heq : TCremoveUnit s k cf obj = (none, s) := by
            simp [TCremoveUnit, hcf, hgk, hb]
          rw [heq]
          exact hg
      | dct m =>
        by_cases hb : Obj.beq (Obj.dct m) obj = true
        · have heq : TCremoveUnit s k cf obj = (none, delk s k) := by
            simp [TCremoveUnit, hcf, hgk, hb]
          rw [heq]
          exact TCgood_delk s k hg.1
        · have heq : TCremoveUnit s k cf obj = (none, s) := by
            simp [TCremoveUnit, hcf, hgk, hb]
          rw [heq]
          exact hg
  · have hcf' : cf obj = false := by simpa using hcf
    rw [TCremoveUnit_mismatch s k cf obj hcf']
    exact hg

mutual

theorem TCadd_good (k : Nat) (cf : ClassFilter) :
    ∀ (obj : Obj) (s : ObjSpace), TCgood s k → TCgood (TCadd k cf obj s).2 k
  | Obj.tup xs, s, hg => TCaddMany_good k cf xs s hg
  | Obj.atom n, s, hg => TCaddUnit_good s k cf (Obj.atom n) rfl hg
  | Obj.lst xs, s, hg => TCaddUnit_good s k cf (Obj.lst xs) rfl hg
  | Obj.dct m, s, hg => TCaddUnit_good s k cf (Obj.dct m) rfl hg

theorem TCaddMany_good (k : Nat) (cf : ClassFilter) :
    ∀ (os : List Obj) (s : ObjSpace), TCgood s k →
      TCgood (TCaddMany k cf os s).2 k
  | [], _, hg => hg
  | o :: os, s, hg => by
    have h1 := TCadd_good k cf o s hg
    rcases hr : TCadd k cf o s with ⟨e, s'⟩
    rw [hr] at h1
    cases e with
    | none =>
      have heq : TCaddMany k cf (o :: os) s = TCaddMany k cf os s' := by
        simp [TCaddMany, hr]
      rw [heq]
      exact TCaddMany_good k cf os s' h1
    | some err =>
      have heq : TCaddMany k cf (o :: os) s = (some err, s') := by
        simp [TCaddMany, hr]
      rw [heq]
      exact h1

end

mutual

theorem TCremove_good (k : Nat) (cf : ClassFilter) :
    ∀ (obj : Obj) (s : ObjSpace), TCgood s k →
      TCgood (TCremove k cf obj s).2 k
  | Obj.tup xs, s, hg => TCremoveMany_good k cf xs s hg
  | Obj.atom n, s, hg => TCremoveUnit_good s k cf (Obj.atom n) hg
  | Obj.lst xs, s, hg => TCremoveUnit_good s k cf (Obj.lst xs) hg
  | Obj.dct m, s, hg => TCremoveUnit_good s k cf (Obj.dct m) hg

theorem TCremoveMany_good (k : Nat) (cf : ClassFilter) :
    ∀ (os : List Obj) (s : ObjSpace), TCgood s k →
      TCgood (TCremoveMany k cf os s).2 k
  | [], _, hg => hg
  | o :: os, s, hg => by
    have h1 := TCremove_good k cf o s hg
    rcases hr : TCremove k cf o s with ⟨e, s'⟩
    rw [hr] at h1
    cases e with
    | none =>
      have heq : TCremoveMany k cf (o :: os) s = TCremoveMany k cf os s' := by
        simp [TCremoveMany, hr]
      rw [heq]
      exact TCremoveMany_good k cf os s' h1
    | some err =>
      have heq : TCremoveMany k cf (o :: os) s = (some err, s') := by
        simp [TCremoveMany, hr]
      rw [heq]
      exact h1

end

theorem TCapply_good (k : Nat) (cf : ClassFilter) (s : ObjSpace)
    (op : CoopOp) (hg : TCgood s k) : TCgood (TCapply k cf s op) k := by
  cases op with
  | addOp o => exact TCadd_good k cf o s hg
  | removeOp o => exact TCremove_good k cf o s hg

theorem TCrun_good (k : Nat) (cf : ClassFilter) :
    ∀ (ops : List CoopOp) (s : ObjSpace), TCgood s k →
      TCgood (TCrun k cf ops s) k
  | [], _, hg => hg
  | op :: ops, s, hg =>
    TCrun_good k cf ops (TCapply k cf s op) (TCapply_good k cf s op hg)

/-! ## Claim C5: amended theorem -/

/-- C5 (amended): for `TupleCooperation`, every sequence of `add` and
`remove` operations starting from a duplicate-free store with the bound key
absent preserves the invariant that the stored value under the key is never
a tuple — the strategy's own collection type — with fewer than 2 elements:
removals that leave exactly one element demote the storage to the bare
object and removals that leave zero elements delete the key.  (The original
claim's blanket "collection (tuple/list)" phrasing fails, and so does the
corresponding list-shape statement for `ListCooperation`: see
`C5_counterexample` for a foreign 1-element list stored bare and for a
remove that leaves a 1-element list behind.) -/
theorem C5_tupleCooperation_shape_invariant (k : Nat) (cf : ClassFilter)
    (ops : List CoopOp) (s : ObjSpace) (hnd : keysNodup s)
    (habs : getk s k = none) : TCkeyInv (TCrun k cf ops s) k :=
  (TCrun_good k cf ops s ⟨hnd, fun v hv => by rw [habs] at hv; cases hv⟩).2

/-- C5 witness: a concrete run — add two atoms, remove one — under an
initially empty store satisfies the tuple-shape invariant (the key indeed
holds the bare demoted atom afterwards). -/
theorem C5_witness :
    keysNodup [] ∧ getk [] 0 = none ∧
    TCkeyInv (TCrun 0 (fun _ => true)
      [CoopOp.addOp (Obj.atom 1), CoopOp.addOp (Obj.atom 2),
        CoopOp.removeOp (Obj.atom 1)] []) 0 :=
  ⟨List.nodup_nil, rfl,
    C5_tupleCooperation_shape_invariant 0 (fun _ => true)
      [CoopOp.addOp (Obj.atom 1), CoopOp.addOp (Obj.atom 2),
        CoopOp.removeOp (Obj.atom 1)] [] List.nodup_nil rfl⟩
